import Mathlib

/-
Verification development for the stream-URL resolution core of the
`fuo_ytmusic` plugin (src/fuo_ytmusic/service.py).

Strings are modelled as `List Char`.  The external world (the remote
catalog API, the HTTP session, the player script and the cipher built
from it by the `pytube` library) is modelled as an `Env` of pure
functions; the mutable fields of the `YtmusicService` singleton
(`_js`, `_cipher`, `_signature_timestamp`, the module-level `CACHE`)
are threaded explicitly as a `SvcState`, together with instrumentation
counters that record how many times each external effect was performed.
-/

namespace Ytm

/-- Character sequences; the model of Python `str` values. -/
abbrev Chars := List Char

/-- Modelled from the spec: a `TransformOp` is one of the three primitive
string-transform operations of the cipher (reverse / swap-at-index /
splice-from-index).  The cipher engine itself is the external `pytube`
library, which is not part of this repository's sources. -/
inductive TransformOp where
  | reverse : TransformOp
  | swapAt : Nat → TransformOp
  | spliceFrom : Nat → TransformOp
deriving DecidableEq

/-- Modelled from the spec: the modulo-indexed two-element swap primitive,
exchanging position 0 with position `n % length`. -/
def swapFirst (n : Nat) (l : Chars) : Chars :=
  match l with
  | [] => []
  | c :: rest =>
    let i := n % (c :: rest).length
    ((c :: rest).set 0 ((c :: rest).getD i c)).set i c

/-- Modelled from the spec: apply one primitive operation to a character
sequence. -/
def applyOp : TransformOp → Chars → Chars
  | .reverse, l => l.reverse
  | .swapAt n, l => swapFirst n l
  | .spliceFrom n, l => l.drop n

/-- Modelled from the spec: `CipherEngine.apply` — apply each operation of
the transform program in order (pure, deterministic). -/
def applyProgram (p : List TransformOp) (s : Chars) : Chars :=
  p.foldl (fun acc op => applyOp op acc) s

/-- Numeric value of a hexadecimal digit, if the character is one. -/
def hexVal (c : Char) : Option Nat :=
  if '0' ≤ c ∧ c ≤ '9' then some (c.toNat - '0'.toNat)
  else if 'a' ≤ c ∧ c ≤ 'f' then some (c.toNat - 'a'.toNat + 10)
  else if 'A' ≤ c ∧ c ≤ 'F' then some (c.toNat - 'A'.toNat + 10)
  else none

/-- Modelled from the spec: percent-decoding (`urllib.parse.unquote`,
standard library, not part of this repository's sources).  A `%` followed
by two hex digits decodes to the character with that code; otherwise the
`%` is kept literally.  Multi-byte UTF-8 sequences are abstracted to
direct code points; for bytes below 0x80 this coincides with Python. -/
def unquoteChars : Chars → Chars
  | [] => []
  | '%' :: c1 :: c2 :: rest =>
    match hexVal c1, hexVal c2 with
    | some a, some b => Char.ofNat (16 * a + b) :: unquoteChars rest
    | _, _ => '%' :: unquoteChars (c1 :: c2 :: rest)
  | c :: rest => c :: unquoteChars rest

/-- Python `str.split(sep)` for a single-character separator
(service.py line 167: `sig_ch.split('&')`). -/
def splitOnChar (sep : Char) : Chars → List Chars
  | [] => [[]]
  | c :: rest =>
    if c = sep then [] :: splitOnChar sep rest
    else
      match splitOnChar sep rest with
      | [] => [[c]]
      | t :: ts => (c :: t) :: ts

/-- Boolean prefix test on character sequences. -/
def isPref : Chars → Chars → Bool
  | [], _ => true
  | _ :: _, [] => false
  | a :: as, b :: bs => decide (a = b) && isPref as bs

/-- Boolean substring test; models Python `sig.find(pat) >= 0`
(service.py line 171). -/
def containsSeq (pat : Chars) : Chars → Bool
  | [] => pat.isEmpty
  | c :: rest => isPref pat (c :: rest) || containsSeq pat rest

/-- One iteration of the fragment loop of `_get_stream_url`
(service.py lines 169-172): for the keys `'s'` and `'url'` in dict order,
if `sig.find(key + "=") >= 0` then `res[key] = unquote(sig[len(key+"="):])`.
Note the source tests for the key pattern as a substring but always slices
off a prefix of the fragment. -/
def scanFrag (acc : Chars × Chars) (sig : Chars) : Chars × Chars :=
  let s1 := if containsSeq ['s', '='] sig then unquoteChars (sig.drop 2) else acc.1
  let u1 := if containsSeq ['u', 'r', 'l', '='] sig then unquoteChars (sig.drop 4) else acc.2
  (s1, u1)

/-- The signature-cipher blob parser of `_get_stream_url`
(service.py lines 166-172): split on `'&'`, then fold the fragment scan
starting from `res = ⟨s := "", url := ""⟩`. -/
def parseSigCipher (sigCh : Chars) : Chars × Chars :=
  (splitOnChar '&' sigCh).foldl scanFrag ([], [])

/-- A format descriptor (`SongInfo.StreamingData.Format`): numeric format
code (`int(f.itag)` is abstracted to an integer field), optional plain URL
and the ciphered-signature blob. -/
structure Fmt where
  itag : Int
  url : Option Chars
  signatureCipher : Chars
deriving DecidableEq

/-- Track metadata as consumed by `stream_url`: the
`streamingData.adaptiveFormats` list (service.py line 157). -/
structure SongInfo where
  adaptiveFormats : List Fmt
deriving DecidableEq

/-- Keys of the process-wide `CACHE` used by the resolution core:
`('song_info', video_id)` and `('stream_url', video_id, format_code)`
(service.py lines 101, 154; the singleton `self` argument is constant and
therefore omitted from the key). -/
inductive CKey where
  | songK : Chars → CKey
  | urlK : Chars → Int → CKey
deriving DecidableEq

/-- Values stored in the cache by the resolution core. -/
inductive CVal where
  | song : SongInfo → CVal
  | url : Option Chars → CVal
deriving DecidableEq

/-- A cache entry: key, value and insertion time. -/
abbrev CEntry := CKey × CVal × Nat

/-- Modelled from the spec: the TTL of the process-wide cache, in seconds
(`timedelta(minutes=10).seconds`, service.py line 25). -/
def ttlCACHE : Nat := 600

/-- Modelled from the spec: the capacity bound of the process-wide cache
(`maxsize=100`, service.py line 25). -/
def maxsizeCACHE : Nat := 100

/-- Remove the first entry with the given key, returning it and the rest of
the list.  The list is kept in most-recently-used-first order. -/
def extractEntry (k : CKey) : List CEntry → Option CEntry × List CEntry
  | [] => (none, [])
  | e :: rest =>
    if e.1 = k then (some e, rest)
    else
      match extractEntry k rest with
      | (r, rest1) => (r, e :: rest1)

/-- Modelled from the spec: a cache read (`cache[key]` inside the
`cachetools.cached` decorator; the cache library is an external dependency,
not part of this repository's sources).  A live hit — an entry whose age
satisfies `now - insertion_time < ttl` — returns the value and moves the
entry to the front (most recently used); an expired or absent key is a
miss and leaves the cache unchanged (expired entries are expunged lazily
on the next insertion). -/
def cacheGet (now : Nat) (k : CKey) (c : List CEntry) : Option CVal × List CEntry :=
  match extractEntry k c with
  | (none, _) => (none, c)
  | (some e, rest) => if now < e.2.2 + ttlCACHE then (some e.2.1, e :: rest) else (none, c)

/-- Modelled from the spec: drop all expired entries. -/
def expireCache (now : Nat) (c : List CEntry) : List CEntry :=
  c.filter (fun e => decide (now < e.2.2 + ttlCACHE))

/-- Modelled from the spec: a cache write (`cache[key] = value`): first
expire dead entries, then if still at capacity evict the
least-recently-used (last) entry regardless of its remaining TTL, then
insert the new entry at the front with the current time. -/
def insertCache (now : Nat) (k : CKey) (v : CVal) (c : List CEntry) : List CEntry :=
  let c1 := expireCache now c
  let c2 := if maxsizeCACHE ≤ c1.length then c1.dropLast else c1
  (k, v, now) :: c2

/-- Modelled from the spec: `ResultCache.get_or_compute` — the behaviour of
the `cachetools.cached` decorator around a compute function.  Returns the
value, the new cache, and how many times the compute function ran (0 or 1). -/
def getOrCompute (now : Nat) (k : CKey) (compute : Unit → CVal) (c : List CEntry) :
    CVal × List CEntry × Nat :=
  match cacheGet now k c with
  | (some v, c1) => (v, c1, 0)
  | (none, _) =>
    let v := compute ()
    (v, insertCache now k v c, 1)

/-- The external world: the remote catalog API, the HTTP session and the
player script with its cipher.  `getSong` models
`api.get_song(video_id, signature_timestamp)`; `headStatus` models the
status code of `session.head(url)`; `scriptText` and `program` model the
player script fetched by `_get_cipher` and the transform program the
`pytube` `Cipher` builds from it; `initTs` and `freshTs` model the values
returned by `api.get_signatureTimestamp()` at setup and on refresh. -/
structure Env where
  getSong : Chars → Nat → SongInfo
  headStatus : Chars → Nat
  scriptText : Chars
  program : List TransformOp
  initTs : Nat
  freshTs : Nat

/-- The mutable state of the `YtmusicService` singleton plus the
process-wide `CACHE`, with instrumentation counters for the external
effects (function-entry count of `_get_stream_url`, `api.get_song` calls,
HEAD probes, `get_signatureTimestamp` refreshes, `_get_cipher` script
fetches, `cipher.get_signature` invocations). -/
structure SvcState where
  js : Chars
  cipher : Option (List TransformOp)
  sigTs : Nat
  cache : List CEntry
  attempts : Nat
  songFetches : Nat
  probes : Nat
  tsRefreshes : Nat
  scriptFetches : Nat
  cipherCalls : Nat
deriving DecidableEq

/-- The state right after `__init__`/`setup`: `_js = ""`, `_cipher = None`,
`_signature_timestamp = api.get_signatureTimestamp()`, empty cache
(service.py lines 50-56, 71). -/
def initState (env : Env) : SvcState :=
  { js := [], cipher := none, sigTs := env.initTs, cache := [], attempts := 0,
    songFetches := 0, probes := 0, tsRefreshes := 0, scriptFetches := 0, cipherCalls := 0 }

/-- `_get_cipher` (service.py lines 185-190): fetch the embed page and the
player script (one script-fetch effect), store the script text in `_js`
and build the `pytube` cipher from it (modelled as `env.program`). -/
def getCipher (env : Env) (st : SvcState) : SvcState :=
  { st with js := env.scriptText, cipher := some env.program,
            scriptFetches := st.scriptFetches + 1 }

/-- The plain-URL test of `_get_stream_url` (service.py line 164):
`f.url is not None and f.url != ''`. -/
def hasPlain (f : Fmt) : Bool :=
  match f.url with
  | some u => !u.isEmpty
  | none => false

/-- The ciphered-path URL construction of `_get_stream_url`
(service.py lines 166-176): parse the blob, lazily fetch the cipher when
`_js == ""`, decode the signature and append it under `&sig=`.  The `none`
result models the (unreachable in any state produced by this model's
operations) crash of calling `get_signature` on an absent cipher. -/
def cipherUrl (env : Env) (f : Fmt) (st : SvcState) : Option Chars × SvcState :=
  let p := parseSigCipher f.signatureCipher
  let st1 := if st.js = [] then getCipher env st else st
  match st1.cipher with
  | none => (none, st1)
  | some prog =>
    let st2 := { st1 with cipherCalls := st1.cipherCalls + 1 }
    (some (p.2 ++ ['&', 's', 'i', 'g', '='] ++ applyProgram prog p.1), st2)

/-- `_get_stream_url(f, video_id, retry=False)` (service.py lines 163-183
with `retry` false): plain URL if present, otherwise the ciphered-path URL,
returned without any probe. -/
def getStreamUrlFalse (env : Env) (f : Fmt) (vid : Chars) (st : SvcState) :
    Option Chars × SvcState :=
  let st0 := { st with attempts := st.attempts + 1 }
  if hasPlain f then (f.url, st0)
  else cipherUrl env f st0

/-- `_get_stream_url(f, video_id)` with the default `retry=True`
(service.py lines 163-183): plain URL if present; otherwise construct the
ciphered-path URL, HEAD-probe it, on a 403 refresh the signature timestamp,
and in all cases run the `retry=False` pass once and return its result.
The source's recursion has static depth one, so it is unrolled here into
the call of `getStreamUrlFalse`. -/
def getStreamUrl (env : Env) (f : Fmt) (vid : Chars) (st : SvcState) :
    Option Chars × SvcState :=
  let st0 := { st with attempts := st.attempts + 1 }
  if hasPlain f then (f.url, st0)
  else
    match cipherUrl env f st0 with
    | (none, st1) => (none, st1)
    | (some u, st1) =>
      let st2 := { st1 with probes := st1.probes + 1 }
      let st3 :=
        if env.headStatus u = 403 then
          { st2 with tsRefreshes := st2.tsRefreshes + 1, sigTs := env.freshTs }
        else st2
      getStreamUrlFalse env f vid st3

/-- `song_info(video_id)` (service.py lines 101-103): the
`('song_info', video_id)`-keyed cached fetch of
`api.get_song(video_id, self._signature_timestamp)`. -/
def songInfoCached (env : Env) (now : Nat) (vid : Chars) (st : SvcState) :
    SongInfo × SvcState :=
  match cacheGet now (CKey.songK vid) st.cache with
  | (some (CVal.song si), c1) => (si, { st with cache := c1 })
  | _ =>
    let si := env.getSong vid st.sigTs
    (si, { st with songFetches := st.songFetches + 1,
                   cache := insertCache now (CKey.songK vid) (CVal.song si) st.cache })

/-- The body of `stream_url` (service.py lines 155-161), without the
memoization decorator: fetch the track metadata via the cached
`song_info`, select the first format whose code equals `format_code`,
and resolve it; `None` if no format matches. -/
def streamUrlNoCache (env : Env) (now : Nat) (vid : Chars) (code : Int) (st : SvcState) :
    Option Chars × SvcState :=
  let r := songInfoCached env now vid st
  match r.1.adaptiveFormats.find? (fun g => g.itag == code) with
  | some f => getStreamUrl env f vid r.2
  | none => (none, r.2)

/-- `stream_url(video_id, format_code)` (service.py line 154-161) with its
`('stream_url', video_id, format_code)`-keyed memoization in the
process-wide `CACHE`. -/
def streamUrl (env : Env) (now : Nat) (vid : Chars) (code : Int) (st : SvcState) :
    Option Chars × SvcState :=
  match cacheGet now (CKey.urlK vid code) st.cache with
  | (some (CVal.url u), c1) => (u, { st with cache := c1 })
  | _ =>
    let r := streamUrlNoCache env now vid code st
    (r.1, { r.2 with cache := insertCache now (CKey.urlK vid code) (CVal.url r.1) r.2.cache })

/-- The transform program `_get_stream_url` decodes with in a given state:
the freshly built one when the script is not yet cached (`_js == ""`),
otherwise the cached `_cipher`. -/
def usedProgram (env : Env) (st : SvcState) : List TransformOp :=
  if st.js = [] then env.program else st.cipher.getD []

/-- The URL constructed by one ciphered-path pass of `_get_stream_url`
from a given state (service.py line 176). -/
def firstUrl (env : Env) (f : Fmt) (st : SvcState) : Chars :=
  (parseSigCipher f.signatureCipher).2 ++ ['&', 's', 'i', 'g', '='] ++
    applyProgram (usedProgram env st) (parseSigCipher f.signatureCipher).1

/-- States in which the lazy cipher initialization is coherent: either the
script has not been fetched yet, or a cipher is present.  This holds in the
initial state and is preserved by every operation. -/
def WFc (st : SvcState) : Prop :=
  st.js = [] ∨ st.cipher.isSome

theorem wfc_initState (env : Env) : WFc (initState env) := Or.inl rfl

theorem cipherUrl_fst (env : Env) (f : Fmt) (st : SvcState) (hwf : WFc st) :
    (cipherUrl env f st).1 = some (firstUrl env f st) := by
  rcases hwf with hj | hs
  · simp [cipherUrl, getCipher, hj, firstUrl, usedProgram]
  · by_cases hj : st.js = []
    · simp [cipherUrl, getCipher, hj, firstUrl, usedProgram]
    · obtain ⟨p, hp⟩ := Option.isSome_iff_exists.mp hs
      simp [cipherUrl, hj, hp, firstUrl, usedProgram]

theorem cipherUrl_snd_js (env : Env) (f : Fmt) (st : SvcState) :
    (cipherUrl env f st).2.js = if st.js = [] then env.scriptText else st.js := by
  by_cases hj : st.js = []
  · simp [cipherUrl, getCipher, hj]
  · cases hc : st.cipher <;> simp [cipherUrl, getCipher, hj, hc]

theorem cipherUrl_snd_cipher (env : Env) (f : Fmt) (st : SvcState) :
    (cipherUrl env f st).2.cipher = if st.js = [] then some env.program else st.cipher := by
  by_cases hj : st.js = []
  · simp [cipherUrl, getCipher, hj]
  · cases hc : st.cipher <;> simp [cipherUrl, getCipher, hj, hc]

theorem cipherUrl_snd_counters (env : Env) (f : Fmt) (st : SvcState) :
    (cipherUrl env f st).2.sigTs = st.sigTs ∧
    (cipherUrl env f st).2.cache = st.cache ∧
    (cipherUrl env f st).2.attempts = st.attempts ∧
    (cipherUrl env f st).2.songFetches = st.songFetches ∧
    (cipherUrl env f st).2.probes = st.probes ∧
    (cipherUrl env f st).2.tsRefreshes = st.tsRefreshes ∧
    (cipherUrl env f st).2.scriptFetches
      = st.scriptFetches + (if st.js = [] then 1 else 0) := by
  by_cases hj : st.js = []
  · simp [cipherUrl, getCipher, hj]
  · cases hc : st.cipher <;> simp [cipherUrl, getCipher, hj, hc]

theorem getStreamUrl_main (env : Env) (f : Fmt) (vid : Chars) (st : SvcState)
    (hp : hasPlain f = false) (hwf : WFc st) :
    (getStreamUrl env f vid st).1 = some (firstUrl env f st) ∧
    (getStreamUrl env f vid st).2.probes = st.probes + 1 ∧
    (getStreamUrl env f vid st).2.attempts = st.attempts + 2 ∧
    (getStreamUrl env f vid st).2.songFetches = st.songFetches ∧
    (getStreamUrl env f vid st).2.cache = st.cache ∧
    (getStreamUrl env f vid st).2.js = (if st.js = [] then env.scriptText else st.js) ∧
    (getStreamUrl env f vid st).2.cipher = (if st.js = [] then some env.program else st.cipher) ∧
    (env.headStatus (firstUrl env f st) = 403 →
      (getStreamUrl env f vid st).2.tsRefreshes = st.tsRefreshes + 1 ∧
      (getStreamUrl env f vid st).2.sigTs = env.freshTs) ∧
    (env.headStatus (firstUrl env f st) ≠ 403 →
      (getStreamUrl env f vid st).2.tsRefreshes = st.tsRefreshes ∧
      (getStreamUrl env f vid st).2.sigTs = st.sigTs) ∧
    (getStreamUrl env f vid st).2.scriptFetches =
      st.scriptFetches +
        (if st.js = [] then (if env.scriptText = [] then 2 else 1) else 0) := by
  by_cases hj : st.js = []
  · by_cases h4 : env.headStatus (firstUrl env f st) = 403 <;>
      by_cases hs : env.scriptText = [] <;>
      simp [firstUrl, usedProgram, hj] at h4 <;>
      simp [getStreamUrl, getStreamUrlFalse, cipherUrl, getCipher, hp, hj, hs, h4,
        firstUrl, usedProgram]
  · obtain ⟨p, hcp⟩ := Option.isSome_iff_exists.mp (hwf.resolve_left hj)
    by_cases h4 : env.headStatus (firstUrl env f st) = 403 <;>
      simp [firstUrl, usedProgram, hj, hcp] at h4 <;>
      simp [getStreamUrl, getStreamUrlFalse, cipherUrl, getCipher, hp, hj, hcp, h4,
        firstUrl, usedProgram]

theorem songInfoCached_fields (env : Env) (now : Nat) (vid : Chars) (st : SvcState) :
    (songInfoCached env now vid st).2.js = st.js ∧
    (songInfoCached env now vid st).2.cipher = st.cipher ∧
    (songInfoCached env now vid st).2.sigTs = st.sigTs ∧
    (songInfoCached env now vid st).2.attempts = st.attempts ∧
    (songInfoCached env now vid st).2.probes = st.probes ∧
    (songInfoCached env now vid st).2.tsRefreshes = st.tsRefreshes ∧
    (songInfoCached env now vid st).2.scriptFetches = st.scriptFetches ∧
    (songInfoCached env now vid st).2.cipherCalls = st.cipherCalls := by
  unfold songInfoCached
  split <;> simp

theorem songInfoCached_miss (env : Env) (now : Nat) (vid : Chars) (st : SvcState)
    (h : (cacheGet now (CKey.songK vid) st.cache).1 = none) :
    (songInfoCached env now vid st).1 = env.getSong vid st.sigTs ∧
    (songInfoCached env now vid st).2.songFetches = st.songFetches + 1 := by
  rcases hcg : cacheGet now (CKey.songK vid) st.cache with ⟨ov, c1⟩
  rw [hcg] at h
  simp only at h
  subst h
  simp [songInfoCached, hcg]

theorem cacheGet_cons_self (now t : Nat) (k : CKey) (v : CVal) (rest : List CEntry) :
    cacheGet now k ((k, v, t) :: rest) =
      if now < t + ttlCACHE then (some v, (k, v, t) :: rest)
      else (none, (k, v, t) :: rest) := by
  simp [cacheGet, extractEntry]

theorem insertCache_cons (now : Nat) (k : CKey) (v : CVal) (c : List CEntry) :
    insertCache now k v c =
      (k, v, now) ::
        (if maxsizeCACHE ≤ (expireCache now c).length
         then (expireCache now c).dropLast else expireCache now c) := rfl

theorem firstUrl_congr (env : Env) (f : Fmt) (st1 st2 : SvcState)
    (h1 : st1.js = st2.js) (h2 : st1.cipher = st2.cipher) :
    firstUrl env f st1 = firstUrl env f st2 := by
  unfold firstUrl usedProgram
  rw [h1, h2]

/-- C3: when the selected format descriptor carries a non-empty plain URL,
`stream_url` returns it unchanged, and the cipher path is never invoked:
no script fetch, no signature decode, no liveness probe
(service.py lines 163-165). -/
theorem c3_plain_url_returned_unchanged (env : Env) (now : Nat) (vid : Chars)
    (code : Int) (st : SvcState) (f : Fmt) (u : Chars)
    (hfind : ((songInfoCached env now vid st).1).adaptiveFormats.find?
      (fun g => g.itag == code) = some f)
    (hurl : f.url = some u) (hne : u ≠ []) :
    (streamUrlNoCache env now vid code st).1 = some u ∧
    (streamUrlNoCache env now vid code st).2.cipherCalls = st.cipherCalls ∧
    (streamUrlNoCache env now vid code st).2.scriptFetches = st.scriptFetches ∧
    (streamUrlNoCache env now vid code st).2.probes = st.probes := by
  have hpe : hasPlain f = true := by simp [hasPlain, hurl, hne]
  obtain ⟨hjs, hcip, hsig, hat, hpr, htr, hsf, hcc⟩ := songInfoCached_fields env now vid st
  simp [streamUrlNoCache, hfind, getStreamUrl, hpe, hurl, hpr, hsf, hcc]

/-- C4: when no format descriptor carries the requested format code,
`stream_url` returns `None` and no liveness probe, cipher invocation or
script fetch is performed (service.py lines 154-161). -/
theorem c4_absent_format_returns_none (env : Env) (now : Nat) (vid : Chars)
    (code : Int) (st : SvcState)
    (hfind : ((songInfoCached env now vid st).1).adaptiveFormats.find?
      (fun g => g.itag == code) = none) :
    (streamUrlNoCache env now vid code st).1 = none ∧
    (streamUrlNoCache env now vid code st).2.probes = st.probes ∧
    (streamUrlNoCache env now vid code st).2.cipherCalls = st.cipherCalls ∧
    (streamUrlNoCache env now vid code st).2.scriptFetches = st.scriptFetches ∧
    (streamUrlNoCache env now vid code st).2.attempts = st.attempts := by
  obtain ⟨hjs, hcip, hsig, hat, hpr, htr, hsf, hcc⟩ := songInfoCached_fields env now vid st
  simp [streamUrlNoCache, hfind, hpr, hsf, hcc, hat]

/-- C10: when the liveness probe on the first attempt reports any status
other than 403, the stored signature timestamp is left unchanged, no
refresh is performed, and the URL returned by the unconditional second
pass equals the URL constructed in the first attempt
(service.py lines 177-183). -/
theorem c10_non403_probe_frame (env : Env) (f : Fmt) (vid : Chars) (st : SvcState)
    (hp : hasPlain f = false) (hwf : WFc st)
    (hnot : env.headStatus (firstUrl env f st) ≠ 403) :
    (getStreamUrl env f vid st).1 = some (firstUrl env f st) ∧
    (getStreamUrl env f vid st).2.sigTs = st.sigTs ∧
    (getStreamUrl env f vid st).2.tsRefreshes = st.tsRefreshes := by
  obtain ⟨h1, _, _, _, _, _, _, _, hno, _⟩ := getStreamUrl_main env f vid st hp hwf
  exact ⟨h1, (hno hnot).2, (hno hnot).1⟩

/-- C8: on the ciphered path `_get_stream_url` performs exactly two
resolution attempts in total even when the liveness probe always reports
403: it probes once, retries once, and returns the second attempt's URL
(which coincides with the first attempt's construction); the recursion is
unrolled to depth one in this model because the source's recursive call
always passes `retry=False`, so it terminates
(service.py lines 177-183). -/
theorem c8_always_forbidden_two_attempts (env : Env) (f : Fmt) (vid : Chars)
    (st : SvcState)
    (hAll : ∀ w, env.headStatus w = 403)
    (hp : hasPlain f = false) (hwf : WFc st) :
    (getStreamUrl env f vid st).1 = some (firstUrl env f st) ∧
    (getStreamUrl env f vid st).2.attempts = st.attempts + 2 ∧
    (getStreamUrl env f vid st).2.probes = st.probes + 1 ∧
    (getStreamUrl env f vid st).2.tsRefreshes = st.tsRefreshes + 1 := by
  obtain ⟨h1, h2, h3, _, _, _, _, hyes, _, _⟩ := getStreamUrl_main env f vid st hp hwf
  exact ⟨h1, h3, h2, (hyes (hAll _)).1⟩

theorem splitOnChar_of_not_mem (sep : Char) (l : Chars) (h : sep ∉ l) :
    splitOnChar sep l = [l] := by
  induction l with
  | nil => rfl
  | cons c rest ih =>
    have hc : ¬c = sep := fun he => h (he ▸ List.mem_cons_self c rest)
    have hr : sep ∉ rest := fun hm => h (List.mem_cons_of_mem c hm)
    simp [splitOnChar, hc, ih hr]

theorem splitOnChar_append (sep : Char) (xs ys : Chars) (h : sep ∉ xs) :
    splitOnChar sep (xs ++ sep :: ys) = xs :: splitOnChar sep ys := by
  induction xs with
  | nil => simp [splitOnChar]
  | cons c rest ih =>
    have hc : ¬c = sep := fun he => h (he ▸ List.mem_cons_self c rest)
    have hr : sep ∉ rest := fun hm => h (List.mem_cons_of_mem c hm)
    simp [splitOnChar, hc, ih hr]

theorem containsSeq_s_cons_s (X : Chars) :
    containsSeq ['s', '='] ('s' :: '=' :: X) = true := by
  simp [containsSeq, isPref]

theorem containsSeq_url_cons_url (Y : Chars) :
    containsSeq ['u', 'r', 'l', '='] ('u' :: 'r' :: 'l' :: '=' :: Y) = true := by
  simp [containsSeq, isPref]

theorem containsSeq_s_cons_url (Y : Chars) :
    containsSeq ['s', '='] ('u' :: 'r' :: 'l' :: '=' :: Y) = containsSeq ['s', '='] Y := by
  simp [containsSeq, isPref]

/-- The blob parser on a well-formed two-fragment blob
`s=<X>&url=<Y>` whose values contain no `'&'`: provided additionally that
`Y` does not contain the substring `"s="`, the parse yields exactly the
percent-decoded signature and base URL fragment.  (Without that proviso
the second fragment's substring test `sig.find("s=") >= 0` fires and
clobbers the signature field, see the counterexample for C2.) -/
theorem parseSigCipher_two_fragments (X Y : Chars)
    (hX : '&' ∉ X) (hY : '&' ∉ Y)
    (hsY : containsSeq ['s', '='] Y = false) :
    parseSigCipher (('s' :: '=' :: X) ++ '&' :: ('u' :: 'r' :: 'l' :: '=' :: Y)) =
      (unquoteChars X, unquoteChars Y) := by
  have hx2 : '&' ∉ 's' :: '=' :: X := by simp +decide [hX]
  have hy2 : '&' ∉ 'u' :: 'r' :: 'l' :: '=' :: Y := by simp +decide [hY]
  rw [parseSigCipher, splitOnChar_append '&' _ _ hx2,
    splitOnChar_of_not_mem '&' _ hy2]
  simp [scanFrag, containsSeq_s_cons_s, containsSeq_url_cons_url,
    containsSeq_s_cons_url, hsY]

/-- C2: the claim fails without a proviso on the url value.  This theorem is
the claim amended with the one condition the counterexample forces: the url
value `Y` must not itself contain the substring `"s="` (otherwise the
substring test of the key loop fires on the second fragment and clobbers
the parsed signature).  Under that proviso, a format descriptor with empty
plain URL and blob `s=<X>&url=<Y>` ('&'-free values) resolves to
`unquote(Y) ++ "&sig=" ++ apply(program, unquote(X))`
(service.py lines 166-176). -/
theorem c2_amended_blob_parse (env : Env) (f : Fmt) (vid : Chars) (st : SvcState)
    (X Y : Chars)
    (hf : f.signatureCipher = ('s' :: '=' :: X) ++ '&' :: ('u' :: 'r' :: 'l' :: '=' :: Y))
    (hp : hasPlain f = false)
    (hX : '&' ∉ X) (hY : '&' ∉ Y)
    (hsY : containsSeq ['s', '='] Y = false)
    (hjs : st.js = []) :
    (getStreamUrl env f vid st).1 =
      some (unquoteChars Y ++ ['&', 's', 'i', 'g', '='] ++
        applyProgram env.program (unquoteChars X)) := by
  obtain ⟨h1, _⟩ := getStreamUrl_main env f vid st hp (Or.inl hjs)
  rw [h1]
  unfold firstUrl usedProgram
  rw [hf, parseSigCipher_two_fragments X Y hX hY hsY]
  simp [hjs]

/-- Environment for the C2 counterexample: identity transform program,
non-forbidden probe. -/
def envCE : Env :=
  { getSong := fun _ _ => ⟨[]⟩, headStatus := fun _ => 200,
    scriptText := ['j'], program := [], initTs := 3, freshTs := 7 }

/-- Format descriptor for the C2 counterexample: empty plain URL and the
blob `s=AB&url=Cs=D`, whose values contain no `'&'`. -/
def fmtCE : Fmt :=
  { itag := 250, url := none, signatureCipher := String.toList "s=AB&url=Cs=D" }

/-- C2 counterexample: for the blob `s=AB&url=Cs=D` (values free of `'&'`,
so the claim as stated applies) the code returns
`"Cs=D&sig=l=Cs=D"` — the signature field was clobbered by the substring
test on the second fragment — and not the claimed
`unquote("Cs=D") ++ "&sig=" ++ apply(program, unquote("AB"))`. -/
theorem c2_counterexample :
    fmtCE.signatureCipher =
      ('s' :: '=' :: String.toList "AB") ++
        '&' :: ('u' :: 'r' :: 'l' :: '=' :: String.toList "Cs=D") ∧
    '&' ∉ String.toList "AB" ∧ '&' ∉ String.toList "Cs=D" ∧
    hasPlain fmtCE = false ∧
    (getStreamUrl envCE fmtCE (String.toList "v") (initState envCE)).1 =
      some (String.toList "Cs=D&sig=l=Cs=D") ∧
    String.toList "Cs=D&sig=l=Cs=D" ≠
      unquoteChars (String.toList "Cs=D") ++ ['&', 's', 'i', 'g', '='] ++
        applyProgram envCE.program (unquoteChars (String.toList "AB")) := by
  decide

/-- C1: the claim fails on the code: on a 403 probe the code refreshes the
signature timestamp exactly once but then retries only `_get_stream_url`
on the same format descriptor with `retry=False`; it does not restart from
step 1 and does not re-fetch the track metadata.  This theorem is the
claim amended accordingly: given a metadata-cache miss, a resolution whose
descriptor carries only a ciphered blob and whose probe reports 403
fetches the metadata exactly once, refreshes the timestamp exactly once,
probes exactly once, performs exactly two `_get_stream_url` attempts, and
returns the second attempt's URL (identical to the first attempt's)
(service.py lines 154-183). -/
theorem c1_amended_one_shot_retry (env : Env) (now : Nat) (vid : Chars)
    (code : Int) (st : SvcState) (f : Fmt)
    (hmiss : (cacheGet now (CKey.songK vid) st.cache).1 = none)
    (hfind : ((songInfoCached env now vid st).1).adaptiveFormats.find?
      (fun g => g.itag == code) = some f)
    (hp : hasPlain f = false) (hwf : WFc st)
    (h403 : env.headStatus (firstUrl env f st) = 403) :
    (streamUrlNoCache env now vid code st).1 = some (firstUrl env f st) ∧
    (streamUrlNoCache env now vid code st).2.tsRefreshes = st.tsRefreshes + 1 ∧
    (streamUrlNoCache env now vid code st).2.sigTs = env.freshTs ∧
    (streamUrlNoCache env now vid code st).2.songFetches = st.songFetches + 1 ∧
    (streamUrlNoCache env now vid code st).2.probes = st.probes + 1 ∧
    (streamUrlNoCache env now vid code st).2.attempts = st.attempts + 2 := by
  obtain ⟨hjs, hcip, hsig, hat, hpr, htr, hsf, hcc⟩ := songInfoCached_fields env now vid st
  obtain ⟨hsi, hsongf⟩ := songInfoCached_miss env now vid st hmiss
  have hwf1 : WFc ((songInfoCached env now vid st).2) := by
    unfold WFc
    rw [hjs, hcip]
    exact hwf
  have hfu : firstUrl env f ((songInfoCached env now vid st).2) = firstUrl env f st :=
    firstUrl_congr env f _ _ hjs hcip
  obtain ⟨m1, m2, m3, m4, _, _, _, myes, _, _⟩ :=
    getStreamUrl_main env f vid ((songInfoCached env now vid st).2) hp hwf1
  obtain ⟨mts, msig⟩ := myes (by rw [hfu]; exact h403)
  refine ⟨?_, ?_, ?_, ?_, ?_, ?_⟩ <;> simp only [streamUrlNoCache, hfind]
  · rw [m1, hfu]
  · rw [mts, htr]
  · exact msig
  · rw [m4, hsongf]
  · rw [m2, hpr]
  · rw [m3, hat]

/-- A format descriptor with no plain URL and the well-behaved ciphered
blob `s=AB&url=CD`, used by several concrete instantiations. -/
def fmtC1 : Fmt :=
  { itag := 1, url := none, signatureCipher := String.toList "s=AB&url=CD" }

/-- Environment for the C1 counterexample: the probe always reports 403;
the single available format carries only the ciphered blob `s=AB&url=CD`. -/
def envC1 : Env :=
  { getSong := fun _ _ => ⟨[fmtC1]⟩,
    headStatus := fun _ => 403, scriptText := ['j'], program := [],
    initTs := 3, freshTs := 7 }

/-- C1 counterexample: resolving from the initial state with a probe that
reports 403 fetches the track metadata exactly once — the retry does not
restart the resolution from step 1 and does not re-fetch the metadata
(which the claim requires, and which would make the fetch count 2); the
timestamp is refreshed once and the second attempt's URL is returned. -/
theorem c1_counterexample :
    envC1.headStatus (String.toList "CD&sig=AB") = 403 ∧
    (streamUrlNoCache envC1 0 (String.toList "v") 1 (initState envC1)).1 =
      some (String.toList "CD&sig=AB") ∧
    (streamUrlNoCache envC1 0 (String.toList "v") 1 (initState envC1)).2.tsRefreshes = 1 ∧
    (streamUrlNoCache envC1 0 (String.toList "v") 1 (initState envC1)).2.probes = 1 ∧
    (streamUrlNoCache envC1 0 (String.toList "v") 1 (initState envC1)).2.songFetches = 1 ∧
    ¬(streamUrlNoCache envC1 0 (String.toList "v") 1 (initState envC1)).2.songFetches = 2 := by
  decide

/-- C7: the player script is fetched and the cipher built lazily on first
need and at most once per script lifetime: a ciphered-path resolution
starting with no cached script (`_js == ""`) fetches it exactly once
(provided the fetched text is non-empty) and stores the script/program
pair; any resolution starting with a cached script performs no fetch and
leaves the pair unchanged — and no operation other than `_get_cipher`
ever rebuilds it (service.py lines 173-175, 185-190). -/
theorem c7_lazy_script_single_fetch (env : Env) (f : Fmt) (vid : Chars)
    (st : SvcState) (hp : hasPlain f = false) (hwf : WFc st) :
    (st.js = [] → env.scriptText ≠ [] →
      (getStreamUrl env f vid st).2.scriptFetches = st.scriptFetches + 1 ∧
      (getStreamUrl env f vid st).2.js = env.scriptText ∧
      (getStreamUrl env f vid st).2.cipher = some env.program) ∧
    (st.js ≠ [] →
      (getStreamUrl env f vid st).2.scriptFetches = st.scriptFetches ∧
      (getStreamUrl env f vid st).2.js = st.js ∧
      (getStreamUrl env f vid st).2.cipher = st.cipher) := by
  obtain ⟨_, _, _, _, _, mjs, mcip, _, _, msf⟩ := getStreamUrl_main env f vid st hp hwf
  constructor
  · intro hj hs
    rw [msf, mjs, mcip]
    simp [hj, hs]
  · intro hj
    rw [msf, mjs, mcip]
    simp [hj]

theorem extractEntry_some_length (k : CKey) (c : List CEntry) (e : CEntry)
    (rest : List CEntry) (h : extractEntry k c = (some e, rest)) :
    rest.length + 1 = c.length := by
  induction c generalizing rest with
  | nil => simp [extractEntry] at h
  | cons a as ih =>
    by_cases ha : a.1 = k
    · simp [extractEntry, ha] at h
      rw [← h.2]
      simp
    · rcases hx : extractEntry k as with ⟨r1, rest1⟩
      simp [extractEntry, ha, hx] at h
      rcases h with ⟨h1, h2⟩
      subst h2
      simp [ih rest1 (by rw [hx, h1])]

theorem cacheGet_snd_length (now : Nat) (k : CKey) (c : List CEntry) :
    ((cacheGet now k c).2).length = c.length := by
  rcases hx : extractEntry k c with ⟨r, rest⟩
  cases r with
  | none => simp [cacheGet, hx]
  | some e =>
    have := extractEntry_some_length k c e rest hx
    by_cases hl : now < e.2.2 + ttlCACHE <;> simp [cacheGet, hx, hl] <;> omega

theorem insertCache_length_le (now : Nat) (k : CKey) (v : CVal) (c : List CEntry)
    (h : c.length ≤ maxsizeCACHE) :
    (insertCache now k v c).length ≤ maxsizeCACHE := by
  have he : (expireCache now c).length ≤ c.length := List.length_filter_le _ _
  have hm : 1 ≤ maxsizeCACHE := by norm_num [maxsizeCACHE]
  unfold insertCache
  by_cases hf : maxsizeCACHE ≤ (expireCache now c).length
  · have hd : (expireCache now c).dropLast.length = (expireCache now c).length - 1 := by
      simp
    simp only [hf, if_pos]
    simp only [List.length_cons, hd]
    omega
  · simp only [hf, if_neg, not_false_iff]
    simp only [List.length_cons]
    omega

theorem getOrCompute_length_le (now : Nat) (k : CKey) (comp : Unit → CVal)
    (c : List CEntry) (h : c.length ≤ maxsizeCACHE) :
    ((getOrCompute now k comp c).2.1).length ≤ maxsizeCACHE := by
  rcases hcg : cacheGet now k c with ⟨ov, c1⟩
  have hl : c1.length = c.length := by
    have := cacheGet_snd_length now k c
    rw [hcg] at this
    exact this
  cases ov with
  | none => simp [getOrCompute, hcg, insertCache_length_le now k _ c h]
  | some v =>
    simp [getOrCompute, hcg]
    omega

theorem getStreamUrlFalse_cache_eq (env : Env) (f : Fmt) (vid : Chars)
    (st : SvcState) : (getStreamUrlFalse env f vid st).2.cache = st.cache := by
  by_cases hpl : hasPlain f
  · simp [getStreamUrlFalse, hpl]
  · have h := (cipherUrl_snd_counters env f { st with attempts := st.attempts + 1 }).2.1
    simp [getStreamUrlFalse, hpl]
    exact h

theorem getStreamUrl_cache_eq (env : Env) (f : Fmt) (vid : Chars)
    (st : SvcState) : (getStreamUrl env f vid st).2.cache = st.cache := by
  by_cases hpl : hasPlain f
  · simp [getStreamUrl, hpl]
  · rcases hcu : cipherUrl env f { st with attempts := st.attempts + 1 } with ⟨ou, st1⟩
    have h1 : st1.cache = st.cache := by
      have := (cipherUrl_snd_counters env f { st with attempts := st.attempts + 1 }).2.1
      rw [hcu] at this
      exact this
    cases ou with
    | none => simp [getStreamUrl, hpl, hcu, h1]
    | some u =>
      by_cases h4 : env.headStatus u = 403 <;>
        simp [getStreamUrl, hpl, hcu, h4, getStreamUrlFalse_cache_eq, h1]

theorem songInfoCached_cache_le (env : Env) (now : Nat) (vid : Chars)
    (st : SvcState) (h : st.cache.length ≤ maxsizeCACHE) :
    ((songInfoCached env now vid st).2).cache.length ≤ maxsizeCACHE := by
  rcases hcg : cacheGet now (CKey.songK vid) st.cache with ⟨ov, c1⟩
  have hl : c1.length = st.cache.length := by
    have := cacheGet_snd_length now (CKey.songK vid) st.cache
    rw [hcg] at this
    exact this
  rcases ov with _ | v
  · simp [songInfoCached, hcg, insertCache_length_le _ _ _ _ h]
  · cases v with
    | song si => simp [songInfoCached, hcg]; omega
    | url u => simp [songInfoCached, hcg, insertCache_length_le _ _ _ _ h]

theorem streamUrlNoCache_cache_le (env : Env) (now : Nat) (vid : Chars)
    (code : Int) (st : SvcState) (h : st.cache.length ≤ maxsizeCACHE) :
    ((streamUrlNoCache env now vid code st).2).cache.length ≤ maxsizeCACHE := by
  have h1 := songInfoCached_cache_le env now vid st h
  unfold streamUrlNoCache
  rcases hfd : ((songInfoCached env now vid st).1).adaptiveFormats.find?
      (fun g => g.itag == code) with _ | f
  · simp [hfd, h1]
  · simp [hfd, getStreamUrl_cache_eq, h1]

theorem streamUrl_cache_le (env : Env) (now : Nat) (vid : Chars) (code : Int)
    (st : SvcState) (h : st.cache.length ≤ maxsizeCACHE) :
    ((streamUrl env now vid code st).2).cache.length ≤ maxsizeCACHE := by
  rcases hcg : cacheGet now (CKey.urlK vid code) st.cache with ⟨ov, c1⟩
  have hl : c1.length = st.cache.length := by
    have := cacheGet_snd_length now (CKey.urlK vid code) st.cache
    rw [hcg] at this
    exact this
  have h2 := streamUrlNoCache_cache_le env now vid code st h
  rcases ov with _ | v
  · simp [streamUrl, hcg, insertCache_length_le _ _ _ _ h2]
  · cases v with
    | song si => simp [streamUrl, hcg, insertCache_length_le _ _ _ _ h2]
    | url u => simp [streamUrl, hcg]; omega

/-- C5: for the TTL cache behind the memoizing decorators, two calls of
`get_or_compute` with the same key — the first a miss at `now1`, the
second within the TTL window — invoke the compute function exactly once
in total and both return the stored value; a further call with the same
key after the TTL has elapsed invokes the compute function again
(cachetools `TTLCache` semantics modelled from the spec, service.py
line 25). -/
theorem c5_get_or_compute_once_within_ttl (now1 now2 now3 : Nat) (k : CKey)
    (comp : Unit → CVal) (c : List CEntry)
    (hmiss : (cacheGet now1 k c).1 = none)
    (h12 : now2 < now1 + ttlCACHE)
    (h3 : now1 + ttlCACHE ≤ now3) :
    (getOrCompute now1 k comp c).2.2 = 1 ∧
    (getOrCompute now1 k comp c).1 = comp () ∧
    (getOrCompute now2 k comp (getOrCompute now1 k comp c).2.1).2.2 = 0 ∧
    (getOrCompute now2 k comp (getOrCompute now1 k comp c).2.1).1 = comp () ∧
    (getOrCompute now3 k comp
      (getOrCompute now2 k comp (getOrCompute now1 k comp c).2.1).2.1).2.2 = 1 := by
  rcases hcg : cacheGet now1 k c with ⟨ov, c1⟩
  rw [hcg] at hmiss
  simp only at hmiss
  subst hmiss
  have h3n : ¬now3 < now1 + ttlCACHE := by omega
  simp [getOrCompute, hcg, insertCache_cons, cacheGet_cons_self, h12, h3n]

/-- C6: the process-wide result cache is bounded at 100 entries with a
fixed TTL of 600 seconds (10 minutes) applied uniformly; on overflow the
eviction victim is the least-recently-used entry regardless of its
remaining TTL, and the capacity bound is an invariant preserved both by
the generic cached-fetch operation and by the full memoized `stream_url`
(cachetools `TTLCache(maxsize=100, ttl=600)` modelled from the spec,
service.py line 25). -/
theorem c6_cache_bounded_lru_eviction :
    maxsizeCACHE = 100 ∧ ttlCACHE = 600 ∧
    (∀ (now : Nat) (k : CKey) (comp : Unit → CVal) (c : List CEntry),
      c.length ≤ maxsizeCACHE →
        ((getOrCompute now k comp c).2.1).length ≤ maxsizeCACHE) ∧
    (∀ (now : Nat) (k : CKey) (v : CVal) (c : List CEntry),
      c.length = maxsizeCACHE → (∀ e ∈ c, now < e.2.2 + ttlCACHE) →
        insertCache now k v c = (k, v, now) :: c.dropLast) ∧
    (∀ (env : Env) (now : Nat) (vid : Chars) (code : Int) (st : SvcState),
      st.cache.length ≤ maxsizeCACHE →
        ((streamUrl env now vid code st).2).cache.length ≤ maxsizeCACHE) := by
  refine ⟨rfl, rfl, getOrCompute_length_le, ?_, streamUrl_cache_le⟩
  intro now k v c hlen hlive
  have hexp : expireCache now c = c := by
    unfold expireCache
    exact List.filter_eq_self.mpr (fun e he => decide_eq_true (hlive e he))
  rw [insertCache_cons, hexp, hlen]
  simp

/-- C9: `stream_url` is itself memoized in the process-wide TTL cache
under the key `('stream_url', video_id, format_code)`: after a first call
that missed the cache, a second call with the same track id and format
code within the TTL returns the previously computed result — including a
`None` result — without re-running format selection, decoding, the
liveness probe, the metadata fetch or any retry (service.py lines 154,
25). -/
theorem c9_stream_url_memoized (env : Env) (now1 now2 : Nat) (vid : Chars)
    (code : Int) (st : SvcState)
    (hmiss : (cacheGet now1 (CKey.urlK vid code) st.cache).1 = none)
    (h12 : now2 < now1 + ttlCACHE) :
    (streamUrl env now2 vid code (streamUrl env now1 vid code st).2).1 =
      (streamUrl env now1 vid code st).1 ∧
    (streamUrl env now2 vid code (streamUrl env now1 vid code st).2).2.songFetches =
      (streamUrl env now1 vid code st).2.songFetches ∧
    (streamUrl env now2 vid code (streamUrl env now1 vid code st).2).2.probes =
      (streamUrl env now1 vid code st).2.probes ∧
    (streamUrl env now2 vid code (streamUrl env now1 vid code st).2).2.tsRefreshes =
      (streamUrl env now1 vid code st).2.tsRefreshes ∧
    (streamUrl env now2 vid code (streamUrl env now1 vid code st).2).2.scriptFetches =
      (streamUrl env now1 vid code st).2.scriptFetches ∧
    (streamUrl env now2 vid code (streamUrl env now1 vid code st).2).2.cipherCalls =
      (streamUrl env now1 vid code st).2.cipherCalls ∧
    (streamUrl env now2 vid code (streamUrl env now1 vid code st).2).2.attempts =
      (streamUrl env now1 vid code st).2.attempts := by
  rcases hcg : cacheGet now1 (CKey.urlK vid code) st.cache with ⟨ov, c1⟩
  rw [hcg] at hmiss
  simp only at hmiss
  subst hmiss
  simp [streamUrl, hcg, insertCache_cons, cacheGet_cons_self, h12]

/-- A format descriptor that carries a non-empty plain URL. -/
def fmt3 : Fmt :=
  { itag := 251, url := some ['u'], signatureCipher := [] }

/-- Environment whose single track offers one plain-URL format. -/
def env3 : Env :=
  { getSong := fun _ _ => ⟨[fmt3]⟩, headStatus := fun _ => 200,
    scriptText := ['j'], program := [], initTs := 0, freshTs := 1 }

/-- Witness for C1 (amended): the one-shot-retry theorem instantiated at
the concrete always-403 environment and the initial state. -/
theorem c1_amended_witness :
    (streamUrlNoCache envC1 0 (String.toList "v") 1 (initState envC1)).1 =
      some (firstUrl envC1 fmtC1 (initState envC1)) ∧
    (streamUrlNoCache envC1 0 (String.toList "v") 1 (initState envC1)).2.tsRefreshes =
      (initState envC1).tsRefreshes + 1 ∧
    (streamUrlNoCache envC1 0 (String.toList "v") 1 (initState envC1)).2.songFetches =
      (initState envC1).songFetches + 1 := by
  have h := c1_amended_one_shot_retry envC1 0 (String.toList "v") 1 (initState envC1)
    fmtC1 (by decide) (by decide) (by decide) (Or.inl rfl) (by decide)
  exact ⟨h.1, h.2.1, h.2.2.2.1⟩

/-- Witness for C2 (amended): the blob `s=AB&url=CD` satisfies the amended
proviso and resolves to `unquote("CD") ++ "&sig=" ++ apply(p, unquote("AB"))`. -/
theorem c2_amended_witness :
    (getStreamUrl envCE fmtC1 (String.toList "v") (initState envCE)).1 =
      some (unquoteChars (String.toList "CD") ++ ['&', 's', 'i', 'g', '='] ++
        applyProgram envCE.program (unquoteChars (String.toList "AB"))) :=
  c2_amended_blob_parse envCE fmtC1 (String.toList "v") (initState envCE)
    (String.toList "AB") (String.toList "CD") (by decide) (by decide)
    (by decide) (by decide) (by decide) rfl

/-- Witness for C3: a concrete plain-URL format is returned unchanged with
all cipher-path counters untouched. -/
theorem c3_witness :
    (streamUrlNoCache env3 0 (String.toList "v") 251 (initState env3)).1 = some ['u'] ∧
    (streamUrlNoCache env3 0 (String.toList "v") 251 (initState env3)).2.probes =
      (initState env3).probes := by
  have h := c3_plain_url_returned_unchanged env3 0 (String.toList "v") 251
    (initState env3) fmt3 ['u'] (by decide) (by decide) (by decide)
  exact ⟨h.1, h.2.2.2⟩

/-- Witness for C4: requesting an absent format code yields `None` with no
probe performed. -/
theorem c4_witness :
    (streamUrlNoCache env3 0 (String.toList "v") 999 (initState env3)).1 = none ∧
    (streamUrlNoCache env3 0 (String.toList "v") 999 (initState env3)).2.probes =
      (initState env3).probes := by
  have h := c4_absent_format_returns_none env3 0 (String.toList "v") 999
    (initState env3) (by decide)
  exact ⟨h.1, h.2.1⟩

/-- Witness for C5: concrete run with a miss at time 0, a hit at time 10
and a recomputation at time 600. -/
theorem c5_witness :
    (getOrCompute 0 (CKey.songK []) (fun _ => CVal.url none) []).2.2 = 1 ∧
    (getOrCompute 10 (CKey.songK []) (fun _ => CVal.url none)
      (getOrCompute 0 (CKey.songK []) (fun _ => CVal.url none) []).2.1).2.2 = 0 ∧
    (getOrCompute 600 (CKey.songK []) (fun _ => CVal.url none)
      (getOrCompute 10 (CKey.songK []) (fun _ => CVal.url none)
        (getOrCompute 0 (CKey.songK []) (fun _ => CVal.url none) []).2.1).2.1).2.2 = 1 := by
  have h := c5_get_or_compute_once_within_ttl 0 10 600 (CKey.songK [])
    (fun _ => CVal.url none) [] (by decide) (by decide) (by decide)
  exact ⟨h.1, h.2.2.1, h.2.2.2.2⟩

/-- A full cache of 100 live entries, inserted at time 0. -/
def cFull : List CEntry := List.replicate 100 ((CKey.songK []), CVal.url none, 0)

/-- Witness for C6: inserting into the full, all-live cache evicts exactly
the least-recently-used entry even though no entry has expired. -/
theorem c6_witness :
    insertCache 0 (CKey.urlK [] 1) (CVal.url none) cFull =
      ((CKey.urlK [] 1), CVal.url none, 0) :: cFull.dropLast ∧
    ((getOrCompute 0 (CKey.urlK [] 1) (fun _ => CVal.url none) cFull).2.1).length ≤
      maxsizeCACHE := by
  have h := c6_cache_bounded_lru_eviction
  refine ⟨h.2.2.2.1 0 (CKey.urlK [] 1) (CVal.url none) cFull (by decide) ?_,
    h.2.2.1 0 (CKey.urlK [] 1) (fun _ => CVal.url none) cFull (by decide)⟩
  intro e he
  have : e.2.2 = 0 := by
    have := List.eq_of_mem_replicate he
    rw [this]
  rw [this]
  decide

/-- Witness for C7: from the initial state the script is fetched exactly
once and the script/program pair is stored. -/
theorem c7_witness :
    (getStreamUrl envC1 fmtC1 (String.toList "v") (initState envC1)).2.scriptFetches =
      (initState envC1).scriptFetches + 1 ∧
    (getStreamUrl envC1 fmtC1 (String.toList "v") (initState envC1)).2.js =
      envC1.scriptText ∧
    (getStreamUrl envC1 fmtC1 (String.toList "v") (initState envC1)).2.cipher =
      some envC1.program :=
  (c7_lazy_script_single_fetch envC1 fmtC1 (String.toList "v") (initState envC1)
    (by decide) (Or.inl rfl)).1 rfl (by decide)

/-- Witness for C8: with the always-403 probe the resolution performs two
attempts, one probe, one refresh, and returns the constructed URL. -/
theorem c8_witness :
    (getStreamUrl envC1 fmtC1 (String.toList "v") (initState envC1)).1 =
      some (firstUrl envC1 fmtC1 (initState envC1)) ∧
    (getStreamUrl envC1 fmtC1 (String.toList "v") (initState envC1)).2.attempts =
      (initState envC1).attempts + 2 :=
  have h := c8_always_forbidden_two_attempts envC1 fmtC1 (String.toList "v")
    (initState envC1) (fun _ => rfl) (by decide) (Or.inl rfl)
  ⟨h.1, h.2.1⟩

/-- Witness for C9: a second `stream_url` call at time 5 returns the value
computed and cached at time 0 with no counter advancing. -/
theorem c9_witness :
    (streamUrl envC1 5 (String.toList "v") 1
      (streamUrl envC1 0 (String.toList "v") 1 (initState envC1)).2).1 =
      (streamUrl envC1 0 (String.toList "v") 1 (initState envC1)).1 ∧
    (streamUrl envC1 5 (String.toList "v") 1
      (streamUrl envC1 0 (String.toList "v") 1 (initState envC1)).2).2.probes =
      (streamUrl envC1 0 (String.toList "v") 1 (initState envC1)).2.probes := by
  have h := c9_stream_url_memoized envC1 0 5 (String.toList "v") 1
    (initState envC1) (by decide) (by decide)
  exact ⟨h.1, h.2.2.1⟩

/-- Witness for C10: with a probe reporting 200, the timestamp is untouched
and the first attempt's constructed URL is returned. -/
theorem c10_witness :
    (getStreamUrl envCE fmtC1 (String.toList "v") (initState envCE)).1 =
      some (firstUrl envCE fmtC1 (initState envCE)) ∧
    (getStreamUrl envCE fmtC1 (String.toList "v") (initState envCE)).2.sigTs =
      (initState envCE).sigTs :=
  have h := c10_non403_probe_frame envCE fmtC1 (String.toList "v") (initState envCE)
    (by decide) (Or.inl rfl) (by decide)
  ⟨h.1, h.2.1⟩

end Ytm
